import Mathlib

/-!
Verification of the alphabet-aware sequence core (Bio/Seq.py): the immutable
Seq type, the mutable MutableSeq type, the complement / transcription /
translation transforms and the alphabet compatibility checks.  Sequence data
is modelled as a list of characters; fallible operations return Except values.
External collaborators (the Alphabet registry, the IUPAC complement data and
the codon tables) are not part of the verified source and are modelled from
the specification; each such definition is marked in its doc comment.
-/

namespace Bio

/-- Decidable equality for Except values, used to evaluate concrete runs. -/
instance {ε α : Type} [DecidableEq ε] [DecidableEq α] : DecidableEq (Except ε α) := fun a b =>
  match a, b with
  | .error e, .error f =>
    if h : e = f then isTrue (congrArg Except.error h)
    else isFalse (fun hh => h (Except.error.inj hh))
  | .ok x, .ok y =>
    if h : x = y then isTrue (congrArg Except.ok h)
    else isFalse (fun hh => h (Except.ok.inj hh))
  | .error _, .ok _ => isFalse (fun hh => Except.noConfusion hh)
  | .ok _, .error _ => isFalse (fun hh => Except.noConfusion hh)

/-- Broad category of an alphabet, as exposed by the external registry. -/
inductive BaseCategory where
  | DNA
  | RNA
  | Protein
  | Generic
deriving DecidableEq, Repr

/-- Modelled from the spec: the external Alphabet registry (modules Alphabet
and Alphabet.IUPAC, not part of the verified source) supplies opaque tags for
symbol domains: the fully generic tag, DNA, RNA and protein categories, each
nucleotide category at generic, unambiguous and ambiguous specificity. -/
inductive Alphabet where
  | generic_alphabet
  | generic_dna
  | unambiguous_dna
  | ambiguous_dna
  | generic_rna
  | unambiguous_rna
  | ambiguous_rna
  | generic_protein
deriving DecidableEq, Repr

/-- Modelled from the spec: baseCategory of the registry, giving the broad
category of an alphabet tag (the isinstance checks against DNAAlphabet,
RNAAlphabet and ProteinAlphabet on the base alphabet in the source). -/
def baseCategory : Alphabet → BaseCategory
  | .generic_alphabet => .Generic
  | .generic_dna | .unambiguous_dna | .ambiguous_dna => .DNA
  | .generic_rna | .unambiguous_rna | .ambiguous_rna => .RNA
  | .generic_protein => .Protein

/-- Modelled from the spec: Alphabet compatibility; the fully generic tag is
compatible with everything, and otherwise two tags are compatible exactly when
their broad categories agree (different categories are never compatible). -/
def _check_type_compatible (a b : Alphabet) : Bool :=
  a == .generic_alphabet || b == .generic_alphabet ||
    baseCategory a == baseCategory b

/-- Modelled from the spec: specificity rank of an alphabet tag, used to pick
the most specific common alphabet of two compatible tags. -/
def alphabetRank : Alphabet → Nat
  | .generic_alphabet => 0
  | .generic_dna | .generic_rna | .generic_protein => 1
  | .ambiguous_dna | .ambiguous_rna => 2
  | .unambiguous_dna | .unambiguous_rna => 3

/-- Modelled from the spec: the consensus of two compatible alphabets is their
most specific common alphabet, here the tag of higher specificity rank. -/
def _consensus_alphabet (a b : Alphabet) : Alphabet :=
  if alphabetRank a < alphabetRank b then b else a

/-- Modelled from the spec: the ambiguous DNA complement mapping supplied by
Data.IUPACData, covering the uppercase IUPAC DNA symbols. -/
def ambiguous_dna_complement : List (Char × Char) :=
  [('A', 'T'), ('C', 'G'), ('G', 'C'), ('T', 'A'),
   ('M', 'K'), ('R', 'Y'), ('W', 'W'), ('S', 'S'), ('Y', 'R'), ('K', 'M'),
   ('V', 'B'), ('H', 'D'), ('D', 'H'), ('B', 'V'),
   ('X', 'X'), ('N', 'N')]

/-- Modelled from the spec: the ambiguous RNA complement mapping supplied by
Data.IUPACData, covering the uppercase IUPAC RNA symbols. -/
def ambiguous_rna_complement : List (Char × Char) :=
  [('A', 'U'), ('C', 'G'), ('G', 'C'), ('U', 'A'),
   ('M', 'K'), ('R', 'Y'), ('W', 'W'), ('S', 'S'), ('Y', 'R'), ('K', 'M'),
   ('V', 'B'), ('H', 'D'), ('D', 'H'), ('B', 'V'),
   ('X', 'X'), ('N', 'N')]

/-- Errors raised by the sequence core: ValueError with its message, TypeError
for incompatible alphabets, KeyError from a dictionary lookup, and the codon
table TranslationError naming the offending codon. -/
inductive SeqError where
  | valueError (msg : String)
  | typeError (a b : Alphabet)
  | keyError (c : Char)
  | translationError (codon : List Char)
deriving DecidableEq, Repr

/-- The pair of module-level complement dictionaries imported from
Data.IUPACData; MutableSeq.complement writes through to them, so they are
threaded explicitly as state. -/
structure ComplementTables where
  dna : List (Char × Char)
  rna : List (Char × Char)
deriving DecidableEq, Repr

/-- The complement dictionaries in their initial, uppercase-only state. -/
def initTables : ComplementTables :=
  ⟨ambiguous_dna_complement, ambiguous_rna_complement⟩

/-- A read-only sequence object: a string of symbols plus an alphabet. -/
structure Seq where
  data : List Char
  alphabet : Alphabet
deriving DecidableEq, Repr

/-- An editable sequence object: a character buffer plus an alphabet. -/
structure MutableSeq where
  data : List Char
  alphabet : Alphabet
deriving DecidableEq, Repr

/-- Seq.__maketrans: extends a complement dictionary with the lowercase images
of its pairs, giving the table passed to string translate. -/
def maketrans (d : List (Char × Char)) : List (Char × Char) :=
  d ++ d.map (fun p => (p.1.toLower, p.2.toLower))

/-- Application of a translation table to one character: characters without an
entry are left unchanged, as by the string translate method. -/
def trApply (t : List (Char × Char)) (c : Char) : Char :=
  match t.find? (fun p => p.1 == c) with
  | some p => p.2
  | none => c

/-- The string translate method: map every character through the table. -/
def strTranslate (t : List (Char × Char)) (l : List Char) : List Char :=
  l.map (trApply t)

/-- Table selection inside Seq.complement: protein fails, a DNA or RNA base
alphabet picks its table, and only the remaining generic case sniffs the data
for the characters 'U' and 'T'. -/
def Seq.chooseTable (t : ComplementTables) (s : Seq) :
    Except SeqError (List (Char × Char)) :=
  if baseCategory s.alphabet = .Protein then
    .error (.valueError "Proteins do not have complements!")
  else if baseCategory s.alphabet = .DNA then .ok t.dna
  else if baseCategory s.alphabet = .RNA then .ok t.rna
  else if 'U' ∈ s.data ∧ 'T' ∈ s.data then
    .error (.valueError "Mixed RNA/DNA found")
  else if 'U' ∈ s.data then .ok t.rna
  else .ok t.dna

/-- Seq.complement against a given state of the complement dictionaries. -/
def Seq.complementWith (t : ComplementTables) (s : Seq) : Except SeqError Seq :=
  match Seq.chooseTable t s with
  | .error e => .error e
  | .ok d => .ok ⟨strTranslate (maketrans d) s.data, s.alphabet⟩

/-- Seq.complement: symbol-wise substitution through the selected complement
table, returning a new Seq with the same alphabet. -/
def Seq.complement (s : Seq) : Except SeqError Seq :=
  Seq.complementWith initTables s

/-- Seq.reverse_complement: the complement followed by the reversing slice,
which keeps the alphabet. -/
def Seq.reverse_complement (s : Seq) : Except SeqError Seq :=
  (Seq.complement s).map (fun r => ⟨r.data.reverse, r.alphabet⟩)

/-- Single character replacement, one str.replace call restricted to
characters. -/
def replaceChar (a b c : Char) : Char :=
  if c = a then b else c

/-- Seq.transcribe: fails for protein and RNA, otherwise replaces 'T' by 'U'
and 't' by 'u' and upgrades the alphabet to the matching RNA variant. -/
def Seq.transcribe (s : Seq) : Except SeqError Seq :=
  if baseCategory s.alphabet = .Protein then
    .error (.valueError "Proteins cannot be transcribed!")
  else if baseCategory s.alphabet = .RNA then
    .error (.valueError "RNA cannot be transcribed!")
  else
    let alphabet :=
      if s.alphabet = .unambiguous_dna then Alphabet.unambiguous_rna
      else if s.alphabet = .ambiguous_dna then Alphabet.ambiguous_rna
      else Alphabet.generic_rna
    .ok ⟨(s.data.map (replaceChar 'T' 'U')).map (replaceChar 't' 'u'), alphabet⟩

/-- Seq.tomutable: copy the data into a mutable sequence. -/
def Seq.tomutable (s : Seq) : MutableSeq :=
  ⟨s.data, s.alphabet⟩

/-- MutableSeq.toseq: join the buffer back into an immutable Seq. -/
def MutableSeq.toseq (m : MutableSeq) : Seq :=
  ⟨m.data, m.alphabet⟩

/-- Which of the two module-level complement dictionaries was selected. -/
inductive TableKind where
  | dna
  | rna
deriving DecidableEq, Repr

/-- Read the selected complement dictionary from the state. -/
def ComplementTables.get (t : ComplementTables) : TableKind → List (Char × Char)
  | .dna => t.dna
  | .rna => t.rna

/-- Write the selected complement dictionary back to the state. -/
def ComplementTables.set (t : ComplementTables) :
    TableKind → List (Char × Char) → ComplementTables
  | .dna, d => ⟨d, t.rna⟩
  | .rna, d => ⟨t.dna, d⟩

/-- The lowercase images of the pairs of a complement dictionary. -/
def lowerPairs (d : List (Char × Char)) : List (Char × Char) :=
  d.map (fun p => (p.1.toLower, p.2.toLower))

/-- Python dictionary update: existing keys take the new value in place, keys
not yet present are appended in order. -/
def dictUpdate (d upd : List (Char × Char)) : List (Char × Char) :=
  (d.map (fun p =>
    match upd.find? (fun q => q.1 == p.1) with
    | some q => (p.1, q.2)
    | none => p)) ++
  upd.filter (fun q => d.all (fun p => p.1 != q.1))

/-- Table selection inside MutableSeq.complement: protein fails, but only the
four IUPAC nucleotide alphabets pick a table directly; every other alphabet,
generic DNA and RNA included, falls back to sniffing the buffer for the
characters 'U' and 'T'. -/
def MutableSeq.chooseKind (m : MutableSeq) : Except SeqError TableKind :=
  if baseCategory m.alphabet = .Protein then
    .error (.valueError "Proteins do not have complements!")
  else if m.alphabet = .ambiguous_dna ∨ m.alphabet = .unambiguous_dna then
    .ok .dna
  else if m.alphabet = .ambiguous_rna ∨ m.alphabet = .unambiguous_rna then
    .ok .rna
  else if 'U' ∈ m.data ∧ 'T' ∈ m.data then
    .error (.valueError "Mixed RNA/DNA found")
  else if 'U' ∈ m.data then .ok .rna
  else .ok .dna

/-- Left-to-right mapping of each buffer character through a dictionary; a
character without an entry raises KeyError, as the lambda lookup does. -/
def mapLookup (d : List (Char × Char)) : List Char → Except SeqError (List Char)
  | [] => .ok []
  | c :: rest =>
    match d.find? (fun p => p.1 == c) with
    | some p => (mapLookup d rest).map (fun l => p.2 :: l)
    | none => .error (.keyError c)

/-- MutableSeq.complement: selects a dictionary, updates it in place with its
lowercase pairs (writing through to the shared module-level dictionary), then
replaces the buffer by dictionary lookups.  Returns the new buffer and the
updated state of the shared dictionaries. -/
def MutableSeq.complement (t : ComplementTables) (m : MutableSeq) :
    Except SeqError (MutableSeq × ComplementTables) :=
  match MutableSeq.chooseKind m with
  | .error e => .error e
  | .ok k =>
    let d := t.get k
    let d2 := dictUpdate d (lowerPairs d)
    match mapLookup d2 m.data with
    | .error e => .error e
    | .ok l => .ok (⟨l, m.alphabet⟩, t.set k d2)

/-- MutableSeq.reverse_complement: the in-place complement followed by the
in-place buffer reversal. -/
def MutableSeq.reverse_complement (t : ComplementTables) (m : MutableSeq) :
    Except SeqError (MutableSeq × ComplementTables) :=
  (MutableSeq.complement t m).map (fun p => (⟨p.1.data.reverse, p.1.alphabet⟩, p.2))

/-- An argument that may be a raw string, a Seq or a MutableSeq, matching the
duck-typed dispatch on the alphabet attribute in the source. -/
inductive SeqArg where
  | str (s : List Char)
  | seq (s : Seq)
  | mseq (m : MutableSeq)
deriving DecidableEq, Repr

/-- Seq._get_seq_str_and_check_alphabet: a raw string passes through, a Seq or
MutableSeq argument is alphabet-checked and stringified. -/
def Seq.get_seq_str_and_check_alphabet (self : Seq) :
    SeqArg → Except SeqError (List Char)
  | .str s => .ok s
  | .seq o =>
    if _check_type_compatible self.alphabet o.alphabet then .ok o.data
    else .error (.typeError self.alphabet o.alphabet)
  | .mseq o =>
    if _check_type_compatible self.alphabet o.alphabet then .ok o.data
    else .error (.typeError self.alphabet o.alphabet)

/-- Non-overlapping occurrence count of a nonempty needle, scanning left to
right as str.count does. -/
def countAux (needle : List Char) : List Char → Nat
  | [] => 0
  | c :: rest =>
    if needle.isPrefixOf (c :: rest) then
      1 + countAux needle (List.drop (needle.length - 1) rest)
    else
      countAux needle rest
termination_by l => l.length
decreasing_by
  all_goals simp [List.length_drop]
  all_goals omega

/-- The str.count method on a slice, including the empty-needle convention. -/
def pyCount (hay needle : List Char) : Nat :=
  if needle.isEmpty then hay.length + 1 else countAux needle hay

/-- The slice s[start:stop] for nonnegative clamped bounds. -/
def pySlice (l : List Char) (start stop : Nat) : List Char :=
  (l.take stop).drop start

/-- Seq.count: alphabet-check and stringify the argument, then delegate to
string counting over the slice. -/
def Seq.count (self : Seq) (sub : SeqArg) (start stop : Nat) :
    Except SeqError Nat :=
  match Seq.get_seq_str_and_check_alphabet self sub with
  | .error e => .error e
  | .ok sub_str => .ok (pyCount (pySlice self.data start stop) sub_str)

/-- MutableSeq.count: no alphabet check at all; a sequence argument is just
stringified.  A single-character search scans the buffer slice directly,
anything longer delegates to string counting. -/
def MutableSeq.count (m : MutableSeq) (sub : SeqArg) (start stop : Nat) : Nat :=
  let search : List Char :=
    match sub with
    | .str s => s
    | .seq s => s.data
    | .mseq x => x.data
  if search.length = 1 then
    ((pySlice m.data start stop).filter (fun c => [c] == search)).length
  else
    pyCount (pySlice m.data start stop) search

/-- Seq.__add__: a sequence argument is alphabet-checked and the consensus
alphabet is taken; a raw string keeps the current alphabet. -/
def Seq.add (s : Seq) (other : SeqArg) : Except SeqError Seq :=
  match other with
  | .seq o =>
    if _check_type_compatible s.alphabet o.alphabet then
      .ok ⟨s.data ++ o.data, _consensus_alphabet s.alphabet o.alphabet⟩
    else .error (.typeError s.alphabet o.alphabet)
  | .mseq o =>
    if _check_type_compatible s.alphabet o.alphabet then
      .ok ⟨s.data ++ o.data, _consensus_alphabet s.alphabet o.alphabet⟩
    else .error (.typeError s.alphabet o.alphabet)
  | .str raw => .ok ⟨s.data ++ raw, s.alphabet⟩

/-- Modelled from the spec: the uppercase letters of the external IUPAC
ambiguous DNA alphabet. -/
def ambiguous_dna_letters : List Char :=
  "GATCRYWSMKHBVDN".toList

/-- Modelled from the spec: the uppercase letters of the external IUPAC
ambiguous RNA alphabet. -/
def ambiguous_rna_letters : List Char :=
  "GAUCRYWSMKHBVDN".toList

/-- A codon table as consumed by the translation helper: the forward codon
mapping, the stop codons, and the letters of its nucleotide alphabet (none
when that alphabet leaves them undeclared). -/
structure CodonTable where
  forward_table : List (List Char × Char)
  stop_codons : List (List Char)
  nucleotide_letters : Option (List Char)
deriving DecidableEq, Repr

/-- The valid-letter set of a codon table: its declared letters uppercased,
or, when undeclared, the worst case of ambiguous DNA plus RNA letters. -/
def CodonTable.valid_letters (t : CodonTable) : List Char :=
  match t.nucleotide_letters with
  | some ls => ls.map Char.toUpper
  | none => (ambiguous_dna_letters ++ ambiguous_rna_letters).map Char.toUpper

/-- The codon loop of the translation helper: windows of three symbols, the
trailing leftover dropped; each codon is looked up in the forward table, then
tried as a stop codon, then as an all-valid-letters ambiguous codon, and
otherwise the invalid codon is reported. -/
def translateLoop (t : CodonTable) (stop_symbol pos_stop : Char) :
    List Char → Except SeqError (List Char)
  | c1 :: c2 :: c3 :: rest =>
    let codon := [c1, c2, c3]
    match t.forward_table.find? (fun p => p.1 == codon) with
    | some p => (translateLoop t stop_symbol pos_stop rest).map (fun l => p.2 :: l)
    | none =>
      if codon ∈ t.stop_codons then
        (translateLoop t stop_symbol pos_stop rest).map (fun l => stop_symbol :: l)
      else if codon.all (fun ch => t.valid_letters.contains ch) then
        (translateLoop t stop_symbol pos_stop rest).map (fun l => pos_stop :: l)
      else .error (.translationError codon)
  | _ => .ok []

/-- The translation helper _translate_str: uppercase the input, then run the
codon loop. -/
def _translate_str (sequence : List Char) (table : CodonTable)
    (stop_symbol pos_stop : Char) : Except SeqError (List Char) :=
  translateLoop table stop_symbol pos_stop (sequence.map Char.toUpper)

/-- Modelled from the spec: the forward mapping of the standard genetic code,
as supplied by the external Bio.Data.CodonTable collaborator (DNA spelling). -/
def standard_forward : List (String × Char) :=
  [("TTT", 'F'), ("TTC", 'F'), ("TTA", 'L'), ("TTG", 'L'),
   ("CTT", 'L'), ("CTC", 'L'), ("CTA", 'L'), ("CTG", 'L'),
   ("ATT", 'I'), ("ATC", 'I'), ("ATA", 'I'), ("ATG", 'M'),
   ("GTT", 'V'), ("GTC", 'V'), ("GTA", 'V'), ("GTG", 'V'),
   ("TCT", 'S'), ("TCC", 'S'), ("TCA", 'S'), ("TCG", 'S'),
   ("CCT", 'P'), ("CCC", 'P'), ("CCA", 'P'), ("CCG", 'P'),
   ("ACT", 'T'), ("ACC", 'T'), ("ACA", 'T'), ("ACG", 'T'),
   ("GCT", 'A'), ("GCC", 'A'), ("GCA", 'A'), ("GCG", 'A'),
   ("TAT", 'Y'), ("TAC", 'Y'),
   ("CAT", 'H'), ("CAC", 'H'), ("CAA", 'Q'), ("CAG", 'Q'),
   ("AAT", 'N'), ("AAC", 'N'), ("AAA", 'K'), ("AAG", 'K'),
   ("GAT", 'D'), ("GAC", 'D'), ("GAA", 'E'), ("GAG", 'E'),
   ("TGT", 'C'), ("TGC", 'C'), ("TGG", 'W'),
   ("CGT", 'R'), ("CGC", 'R'), ("CGA", 'R'), ("CGG", 'R'),
   ("AGT", 'S'), ("AGC", 'S'), ("AGA", 'R'), ("AGG", 'R'),
   ("GGT", 'G'), ("GGC", 'G'), ("GGA", 'G'), ("GGG", 'G')]

/-- Modelled from the spec: the standard codon table as resolved through the
ambiguous generic family, whose nucleotide alphabet declares no letters. -/
def standard_table : CodonTable :=
  ⟨standard_forward.map (fun p => (p.1.toList, p.2)),
   ["TAA".toList, "TAG".toList, "TGA".toList],
   none⟩

/-- Updating the initial DNA dictionary with its lowercase pairs gives exactly
the case-extended table built by Seq.__maketrans. -/
theorem dictUpdate_lower_dna :
    dictUpdate ambiguous_dna_complement (lowerPairs ambiguous_dna_complement) =
      maketrans ambiguous_dna_complement := by
  decide

/-- Updating the initial RNA dictionary with its lowercase pairs gives exactly
the case-extended table built by Seq.__maketrans. -/
theorem dictUpdate_lower_rna :
    dictUpdate ambiguous_rna_complement (lowerPairs ambiguous_rna_complement) =
      maketrans ambiguous_rna_complement := by
  decide

/-- When every character of the list has an entry, the dictionary lookup map
agrees with the translation-table map. -/
theorem mapLookup_eq_ok (d : List (Char × Char)) :
    ∀ l : List Char, (∀ c ∈ l, (d.find? (fun p => p.1 == c)).isSome) →
      mapLookup d l = .ok (l.map (trApply d))
  | [], _ => rfl
  | c :: rest, h => by
    have hc := h c (List.mem_cons_self c rest)
    rw [Option.isSome_iff_exists] at hc
    obtain ⟨p, hp⟩ := hc
    have ih := mapLookup_eq_ok d rest (fun z hz => h z (List.mem_cons_of_mem c hz))
    simp [mapLookup, hp, ih, trApply, Except.map]

/-- Every pair of the case-extended DNA table maps back to its key. -/
theorem maketrans_dna_back :
    ∀ q ∈ maketrans ambiguous_dna_complement,
      trApply (maketrans ambiguous_dna_complement) q.2 = q.1 := by
  decide

/-- The case-extended DNA complement table is an involution on characters. -/
theorem trApply_dna_invol (c : Char) :
    trApply (maketrans ambiguous_dna_complement)
      (trApply (maketrans ambiguous_dna_complement) c) = c := by
  cases hf : (maketrans ambiguous_dna_complement).find? (fun p => p.1 == c) with
  | none =>
    simp [trApply, hf]
  | some p =>
    have hmem : p ∈ maketrans ambiguous_dna_complement :=
      List.mem_of_find?_eq_some hf
    have hpc : p.1 = c := by
      have h2 := List.find?_some hf
      simpa using h2
    have hinner : trApply (maketrans ambiguous_dna_complement) c = p.2 := by
      simp [trApply, hf]
    rw [hinner, maketrans_dna_back p hmem, hpc]

/-- Double application of the DNA complement substitution is the identity. -/
theorem strTranslate_dna_invol :
    ∀ l : List Char,
      (l.map (trApply (maketrans ambiguous_dna_complement))).map
        (trApply (maketrans ambiguous_dna_complement)) = l
  | [] => rfl
  | a :: rest => by
    simp [trApply_dna_invol a, strTranslate_dna_invol rest]

/-- Seq.complement on a DNA-category alphabet applies the DNA table. -/
theorem seq_complement_dna (s : Seq) (h : baseCategory s.alphabet = .DNA) :
    Seq.complement s =
      .ok ⟨strTranslate (maketrans ambiguous_dna_complement) s.data, s.alphabet⟩ := by
  simp [Seq.complement, Seq.complementWith, Seq.chooseTable, h, initTables]

/-- The codon loop ignores the trailing leftover of fewer than three
characters. -/
theorem translateLoop_take (t : CodonTable) (stop pos : Char) :
    ∀ l : List Char,
      translateLoop t stop pos (l.take (l.length - l.length % 3)) =
        translateLoop t stop pos l
  | [] => rfl
  | [a] => rfl
  | [a, b] => rfl
  | a :: b :: c :: r => by
    have hn : (a :: b :: c :: r).length - (a :: b :: c :: r).length % 3 =
        r.length - r.length % 3 + 1 + 1 + 1 := by
      simp [List.length_cons]
      omega
    rw [hn]
    simp only [List.take_succ_cons]
    have ih := translateLoop_take t stop pos r
    simp only [translateLoop]
    rw [ih]

/-- C1: the translation helper processes the uppercased input in
non-overlapping windows of three symbols from the start, silently dropping a
trailing leftover of one or two symbols; each codon maps through the forward
table, else to the stop symbol when it is a stop codon, else to the ambiguous
marker when all its symbols are valid letters, and otherwise translation fails
naming the invalid codon.  Under the standard table AAA gives K, TAA gives the
stop symbol, TAN gives X and TA? fails with a TranslationError. -/
theorem translate_str_spec :
    (∀ (t : CodonTable) (stop pos : Char) (s : List Char), s.length < 3 →
        _translate_str s t stop pos = .ok []) ∧
    (∀ (t : CodonTable) (stop pos : Char) (s : List Char),
        _translate_str (s.take (s.length - s.length % 3)) t stop pos =
          _translate_str s t stop pos) ∧
    (∀ (t : CodonTable) (stop pos : Char) (a b c : Char) (rest : List Char),
        _translate_str (a :: b :: c :: rest) t stop pos =
          match t.forward_table.find?
              (fun p => p.1 == [a.toUpper, b.toUpper, c.toUpper]) with
          | some p => (_translate_str rest t stop pos).map (fun l => p.2 :: l)
          | none =>
            if [a.toUpper, b.toUpper, c.toUpper] ∈ t.stop_codons then
              (_translate_str rest t stop pos).map (fun l => stop :: l)
            else if [a.toUpper, b.toUpper, c.toUpper].all
                (fun ch => t.valid_letters.contains ch) then
              (_translate_str rest t stop pos).map (fun l => pos :: l)
            else .error (.translationError [a.toUpper, b.toUpper, c.toUpper])) ∧
    _translate_str "AAA".toList standard_table '*' 'X' = .ok ['K'] ∧
    _translate_str "taa".toList standard_table '*' 'X' = .ok ['*'] ∧
    _translate_str "TAA".toList standard_table '*' 'X' = .ok ['*'] ∧
    _translate_str "TAN".toList standard_table '*' 'X' = .ok ['X'] ∧
    _translate_str "TA?".toList standard_table '*' 'X' =
      .error (.translationError ['T', 'A', '?']) := by
  refine ⟨?_, ?_, ?_, by decide, by decide, by decide, by decide, by decide⟩
  · intro t stop pos s hlen
    obtain _ | ⟨a, _ | ⟨b, _ | ⟨c, r⟩⟩⟩ := s
    · rfl
    · rfl
    · rfl
    · exfalso
      simp [List.length_cons] at hlen
      omega
  · intro t stop pos s
    show translateLoop t stop pos ((s.take (s.length - s.length % 3)).map Char.toUpper) =
      translateLoop t stop pos (s.map Char.toUpper)
    rw [List.map_take]
    have hl : s.length = (s.map Char.toUpper).length := (List.length_map s Char.toUpper).symm
    rw [hl]
    exact translateLoop_take t stop pos (s.map Char.toUpper)
  · intro t stop pos a b c rest
    cases hf : t.forward_table.find?
        (fun p => p.1 == [a.toUpper, b.toUpper, c.toUpper]) with
    | some p => simp [_translate_str, translateLoop, hf]
    | none => simp [_translate_str, translateLoop, hf]

/-- C1 witness: a leftover shorter than a codon translates to the empty
protein. -/
theorem translate_str_spec_witness :
    _translate_str ['A', 'A'] standard_table '*' 'X' = .ok [] :=
  translate_str_spec.1 standard_table '*' 'X' ['A', 'A'] (by decide)

/-- C2: Seq.complement fails on a protein alphabet; a DNA-category alphabet
selects the DNA table and an RNA-category alphabet the RNA table; only a
generic alphabet sniffs the content, where 'U' together with 'T' is the mixed
RNA/DNA error, 'U' without 'T' selects RNA rules and everything else selects
DNA rules; the case-extended tables map uppercase and lowercase symbols
independently, preserving case. -/
theorem seq_complement_spec (s : Seq) :
    (baseCategory s.alphabet = .Protein →
      Seq.complement s = .error (.valueError "Proteins do not have complements!")) ∧
    (baseCategory s.alphabet = .DNA →
      Seq.complement s =
        .ok ⟨strTranslate (maketrans ambiguous_dna_complement) s.data, s.alphabet⟩) ∧
    (baseCategory s.alphabet = .RNA →
      Seq.complement s =
        .ok ⟨strTranslate (maketrans ambiguous_rna_complement) s.data, s.alphabet⟩) ∧
    (baseCategory s.alphabet = .Generic →
      (('U' ∈ s.data ∧ 'T' ∈ s.data) →
        Seq.complement s = .error (.valueError "Mixed RNA/DNA found")) ∧
      (('U' ∈ s.data ∧ 'T' ∉ s.data) →
        Seq.complement s =
          .ok ⟨strTranslate (maketrans ambiguous_rna_complement) s.data, s.alphabet⟩) ∧
      ('U' ∉ s.data →
        Seq.complement s =
          .ok ⟨strTranslate (maketrans ambiguous_dna_complement) s.data, s.alphabet⟩)) ∧
    (∀ p ∈ ambiguous_dna_complement,
      trApply (maketrans ambiguous_dna_complement) p.1 = p.2 ∧
      trApply (maketrans ambiguous_dna_complement) p.1.toLower = p.2.toLower) ∧
    (∀ p ∈ ambiguous_rna_complement,
      trApply (maketrans ambiguous_rna_complement) p.1 = p.2 ∧
      trApply (maketrans ambiguous_rna_complement) p.1.toLower = p.2.toLower) := by
  refine ⟨?_, ?_, ?_, ?_, by decide, by decide⟩
  · intro h
    simp [Seq.complement, Seq.complementWith, Seq.chooseTable, h]
  · intro h
    exact seq_complement_dna s h
  · intro h
    simp [Seq.complement, Seq.complementWith, Seq.chooseTable, h, initTables]
  · intro h
    refine ⟨?_, ?_, ?_⟩
    · intro hut
      simp [Seq.complement, Seq.complementWith, Seq.chooseTable, h, hut.1, hut.2]
    · intro hut
      simp [Seq.complement, Seq.complementWith, Seq.chooseTable, h, hut.1, hut.2,
        initTables]
    · intro hu
      simp [Seq.complement, Seq.complementWith, Seq.chooseTable, h, hu, initTables]

/-- C2 witness: a generic DNA alphabet complements with the DNA table keeping
case, and a generic alphabet over data with 'U' and no 'T' complements with
the RNA table. -/
theorem seq_complement_spec_witness :
    Seq.complement ⟨['A', 'c', 'g'], .generic_dna⟩ =
      .ok ⟨['T', 'g', 'c'], .generic_dna⟩ ∧
    Seq.complement ⟨['U', 'a'], .generic_alphabet⟩ =
      .ok ⟨['A', 'u'], .generic_alphabet⟩ := by
  constructor
  · have h := (seq_complement_spec ⟨['A', 'c', 'g'], .generic_dna⟩).2.1 (by decide)
    rw [h]
    decide
  · have h := ((seq_complement_spec ⟨['U', 'a'], .generic_alphabet⟩).2.2.2.1
      (by decide)).2.1 ⟨by decide, by decide⟩
    rw [h]
    decide

/-- C3: evaluating the in-place complement at a concrete input shows that the
shared complement dictionary is mutated: the call succeeds, complements the
buffer, and leaves the module-level DNA dictionary different from its state
before the call (the lowercase pairs were added by the update). -/
theorem mutable_complement_mutates_tables :
    (MutableSeq.complement initTables ⟨['A'], .generic_dna⟩).map (fun p => p.2) ≠
      .ok initTables ∧
    (MutableSeq.complement initTables ⟨['A'], .generic_dna⟩).map (fun p => p.1.data) =
      .ok ['T'] := by
  decide

/-- C4 counterexample: with the generic DNA alphabet tag and a buffer holding
'U', the in-place complement sniffs the content and applies RNA rules while
the immutable complement applies DNA rules, so both succeed with different
symbols, contradicting the claimed equivalence for every data and alphabet. -/
theorem mutable_vs_immutable_complement_differ :
    (MutableSeq.complement initTables ⟨['U'], .generic_dna⟩).map (fun p => p.1.data) =
      .ok ['A'] ∧
    (Seq.complement ⟨['U'], .generic_dna⟩).map Seq.data = .ok ['U'] := by
  decide

/-- C4 amended: whenever the in-place table choice and the immutable table
choice resolve to the same complement dictionary and every buffer symbol has
an entry in the case-extended table, the buffer after the in-place complement
equals the data of the immutable complement, and likewise for the reverse
complement; this covers the ACTCGTCGTCG generic-DNA example. -/
theorem mutable_complement_refines_seq (m : MutableSeq) (k : TableKind)
    (d : List (Char × Char))
    (hk : MutableSeq.chooseKind m = .ok k)
    (hd : Seq.chooseTable initTables ⟨m.data, m.alphabet⟩ = .ok d)
    (hkd : initTables.get k = d)
    (hc : ∀ c ∈ m.data, ((maketrans d).find? (fun p => p.1 == c)).isSome) :
    (MutableSeq.complement initTables m).map (fun p => p.1.data) =
      (Seq.complement ⟨m.data, m.alphabet⟩).map Seq.data ∧
    (MutableSeq.reverse_complement initTables m).map (fun p => p.1.data) =
      (Seq.reverse_complement ⟨m.data, m.alphabet⟩).map Seq.data := by
  have hseq : Seq.complement ⟨m.data, m.alphabet⟩ =
      .ok ⟨strTranslate (maketrans d) m.data, m.alphabet⟩ := by
    simp [Seq.complement, Seq.complementWith, hd]
  have hd2 : dictUpdate d (lowerPairs d) = maketrans d := by
    cases k with
    | dna =>
      rw [← hkd]
      exact dictUpdate_lower_dna
    | rna =>
      rw [← hkd]
      exact dictUpdate_lower_rna
  have hmut : MutableSeq.complement initTables m =
      .ok (⟨strTranslate (maketrans d) m.data, m.alphabet⟩,
           initTables.set k (maketrans d)) := by
    simp only [MutableSeq.complement, hk]
    rw [hkd, hd2, mapLookup_eq_ok (maketrans d) m.data hc]
    rfl
  constructor
  · rw [hmut, hseq]
    rfl
  · simp only [MutableSeq.reverse_complement, Seq.reverse_complement, hmut, hseq]
    rfl

/-- C4 witness: the generic-DNA example ACTCGTCGTCG, where both complements
select the DNA dictionary and every symbol is covered. -/
theorem mutable_complement_refines_seq_witness :
    (MutableSeq.reverse_complement initTables
        ⟨"ACTCGTCGTCG".toList, .generic_dna⟩).map (fun p => p.1.data) =
      (Seq.reverse_complement ⟨"ACTCGTCGTCG".toList, .generic_dna⟩).map Seq.data :=
  (mutable_complement_refines_seq ⟨"ACTCGTCGTCG".toList, .generic_dna⟩ .dna
    ambiguous_dna_complement (by decide) (by decide) (by decide) (by decide)).2

/-- C5 counterexample: the mutable count performs no alphabet check; counting
a protein subsequence inside a DNA mutable sequence returns a number instead
of raising, while the immutable count raises the alphabet error on the same
arguments. -/
theorem mutable_count_no_alphabet_check :
    _check_type_compatible Alphabet.generic_dna Alphabet.generic_protein = false ∧
    MutableSeq.count ⟨"ACGT".toList, .generic_dna⟩
      (.seq ⟨['M'], .generic_protein⟩) 0 4 = 0 ∧
    Seq.count ⟨"ACGT".toList, .generic_dna⟩
      (.seq ⟨['M'], .generic_protein⟩) 0 4 =
      .error (.typeError .generic_dna .generic_protein) := by
  decide

/-- C5 amended: the immutable count surfaces the alphabet error for every
incompatible sequence argument, mutable or not, while the mutable count never
checks alphabets: it treats any sequence argument exactly like its raw string
and always returns a number. -/
theorem count_alphabet_check (s o : Seq) (m x : MutableSeq) (start stop : Nat)
    (h1 : _check_type_compatible s.alphabet o.alphabet = false)
    (h2 : _check_type_compatible s.alphabet x.alphabet = false) :
    Seq.count s (.seq o) start stop = .error (.typeError s.alphabet o.alphabet) ∧
    Seq.count s (.mseq x) start stop = .error (.typeError s.alphabet x.alphabet) ∧
    MutableSeq.count m (.seq o) start stop =
      MutableSeq.count m (.str o.data) start stop ∧
    MutableSeq.count m (.mseq x) start stop =
      MutableSeq.count m (.str x.data) start stop := by
  refine ⟨?_, ?_, rfl, rfl⟩
  · simp [Seq.count, Seq.get_seq_str_and_check_alphabet, h1]
  · simp [Seq.count, Seq.get_seq_str_and_check_alphabet, h2]

/-- C5 witness: a DNA sequence counting a protein Seq or MutableSeq argument
raises, and the mutable count ignores alphabets on the same arguments. -/
theorem count_alphabet_check_witness :
    Seq.count ⟨"ACGT".toList, .generic_dna⟩ (.seq ⟨['M'], .generic_protein⟩) 0 4 =
      .error (.typeError .generic_dna .generic_protein) ∧
    Seq.count ⟨"ACGT".toList, .generic_dna⟩ (.mseq ⟨['M'], .generic_protein⟩) 0 4 =
      .error (.typeError .generic_dna .generic_protein) :=
  ⟨(count_alphabet_check ⟨"ACGT".toList, .generic_dna⟩ ⟨['M'], .generic_protein⟩
      ⟨"ACGT".toList, .generic_dna⟩ ⟨['M'], .generic_protein⟩ 0 4
      (by decide) (by decide)).1,
   (count_alphabet_check ⟨"ACGT".toList, .generic_dna⟩ ⟨['M'], .generic_protein⟩
      ⟨"ACGT".toList, .generic_dna⟩ ⟨['M'], .generic_protein⟩ 0 4
      (by decide) (by decide)).2.1⟩

/-- C6: transcription fails for protein and RNA base categories, and otherwise
replaces 'T' by 'U' and 't' by 'u', upgrading unambiguous DNA to unambiguous
RNA, ambiguous DNA to ambiguous RNA, and every other alphabet to generic
RNA. -/
theorem seq_transcribe_spec (s : Seq) :
    (baseCategory s.alphabet = .Protein →
      Seq.transcribe s = .error (.valueError "Proteins cannot be transcribed!")) ∧
    (baseCategory s.alphabet = .RNA →
      Seq.transcribe s = .error (.valueError "RNA cannot be transcribed!")) ∧
    (baseCategory s.alphabet ≠ .Protein → baseCategory s.alphabet ≠ .RNA →
      Seq.transcribe s =
        .ok ⟨s.data.map (fun c => if c = 'T' then 'U' else if c = 't' then 'u' else c),
             if s.alphabet = .unambiguous_dna then .unambiguous_rna
             else if s.alphabet = .ambiguous_dna then .ambiguous_rna
             else .generic_rna⟩) := by
  refine ⟨?_, ?_, ?_⟩
  · intro h
    simp [Seq.transcribe, h]
  · intro h
    have hp : baseCategory s.alphabet ≠ .Protein := by
      rw [h]
      decide
    simp [Seq.transcribe, h, hp]
  · intro h1 h2
    simp only [Seq.transcribe, if_neg h1, if_neg h2]
    have hdata : (s.data.map (replaceChar 'T' 'U')).map (replaceChar 't' 'u') =
        s.data.map (fun c => if c = 'T' then 'U' else if c = 't' then 'u' else c) := by
      rw [List.map_map]
      congr 1
      funext c
      by_cases hT : c = 'T'
      · subst hT
        decide
      · by_cases ht : c = 't'
        · subst ht
          decide
        · simp [Function.comp, replaceChar, hT, ht]
    rw [hdata]

/-- C6 witness: transcribing TAtg under the unambiguous DNA alphabet yields
UAug under the unambiguous RNA alphabet, preserving case. -/
theorem seq_transcribe_spec_witness :
    Seq.transcribe ⟨"TAtg".toList, .unambiguous_dna⟩ =
      .ok ⟨"UAug".toList, .unambiguous_rna⟩ := by
  have h := (seq_transcribe_spec ⟨"TAtg".toList, .unambiguous_dna⟩).2.2
    (by decide) (by decide)
  rw [h]
  decide

/-- C7: concatenation with a sequence argument fails on incompatible alphabets
and otherwise joins the payloads under the consensus alphabet, which is the
most specific of the two tags; concatenation with a raw string keeps the
current alphabet; unambiguous DNA with generic DNA gives unambiguous DNA and
DNA with protein is incompatible. -/
theorem seq_add_spec (s o : Seq) (raw : List Char) :
    (_check_type_compatible s.alphabet o.alphabet = false →
      Seq.add s (.seq o) = .error (.typeError s.alphabet o.alphabet)) ∧
    (_check_type_compatible s.alphabet o.alphabet = true →
      Seq.add s (.seq o) =
        .ok ⟨s.data ++ o.data, _consensus_alphabet s.alphabet o.alphabet⟩) ∧
    Seq.add s (.str raw) = .ok ⟨s.data ++ raw, s.alphabet⟩ ∧
    _consensus_alphabet .unambiguous_dna .generic_dna = .unambiguous_dna ∧
    _consensus_alphabet .generic_dna .unambiguous_dna = .unambiguous_dna ∧
    _check_type_compatible Alphabet.generic_dna Alphabet.generic_protein = false := by
  refine ⟨?_, ?_, rfl, by decide, by decide, by decide⟩
  · intro h
    simp [Seq.add, h]
  · intro h
    simp [Seq.add, h]

/-- C7 witness: an unambiguous-DNA sequence plus a generic-DNA sequence is
tagged unambiguous DNA, and a DNA sequence plus a protein sequence fails. -/
theorem seq_add_spec_witness :
    Seq.add ⟨['A', 'C'], .unambiguous_dna⟩ (.seq ⟨['G', 'G'], .generic_dna⟩) =
      .ok ⟨['A', 'C', 'G', 'G'], .unambiguous_dna⟩ ∧
    Seq.add ⟨['A', 'C'], .generic_dna⟩ (.seq ⟨['M'], .generic_protein⟩) =
      .error (.typeError .generic_dna .generic_protein) :=
  ⟨(seq_add_spec ⟨['A', 'C'], .unambiguous_dna⟩ ⟨['G', 'G'], .generic_dna⟩ []).2.1
      (by decide),
   (seq_add_spec ⟨['A', 'C'], .generic_dna⟩ ⟨['M'], .generic_protein⟩ []).1
      (by decide)⟩

/-- C8: for a DNA-category sequence, the reverse complement is the complement
with its symbols reversed, and applying the reverse complement twice gives
back the original sequence. -/
theorem reverse_complement_involution (s : Seq)
    (h : baseCategory s.alphabet = .DNA) :
    (∀ r, Seq.complement s = .ok r →
      Seq.reverse_complement s = .ok ⟨r.data.reverse, r.alphabet⟩) ∧
    (Seq.reverse_complement s).bind Seq.reverse_complement = .ok s := by
  have hrc : ∀ x : Seq, baseCategory x.alphabet = .DNA →
      Seq.reverse_complement x =
        .ok ⟨(strTranslate (maketrans ambiguous_dna_complement) x.data).reverse,
             x.alphabet⟩ := by
    intro x hx
    simp [Seq.reverse_complement, seq_complement_dna x hx, Except.map]
  constructor
  · intro r hr
    simp [Seq.reverse_complement, hr, Except.map]
  · rw [hrc s h]
    show Seq.reverse_complement
        ⟨(strTranslate (maketrans ambiguous_dna_complement) s.data).reverse,
         s.alphabet⟩ = .ok s
    rw [hrc ⟨(strTranslate (maketrans ambiguous_dna_complement) s.data).reverse,
         s.alphabet⟩ h]
    have hD : (strTranslate (maketrans ambiguous_dna_complement)
        ((strTranslate (maketrans ambiguous_dna_complement) s.data).reverse)).reverse =
        s.data := by
      simp only [strTranslate]
      rw [List.map_reverse, List.reverse_reverse, strTranslate_dna_invol]
    rw [hD]

/-- C8 witness: the reverse complement of ACG under generic DNA is CGT, and a
second reverse complement restores ACG. -/
theorem reverse_complement_involution_witness :
    Seq.reverse_complement ⟨['A', 'C', 'G'], .generic_dna⟩ =
      .ok ⟨['C', 'G', 'T'], .generic_dna⟩ ∧
    (Seq.reverse_complement ⟨['A', 'C', 'G'], .generic_dna⟩).bind
        Seq.reverse_complement = .ok ⟨['A', 'C', 'G'], .generic_dna⟩ :=
  ⟨(reverse_complement_involution ⟨['A', 'C', 'G'], .generic_dna⟩ (by decide)).1
      ⟨['T', 'G', 'C'], .generic_dna⟩ (by decide),
   (reverse_complement_involution ⟨['A', 'C', 'G'], .generic_dna⟩ (by decide)).2⟩

/-- C9: converting an immutable sequence to mutable form and back yields an
equal sequence carrying the original alphabet. -/
theorem tomutable_toseq_roundtrip (s : Seq) : (Seq.tomutable s).toseq = s :=
  rfl

/-- C10: a successful complement or reverse complement returns a sequence
carrying exactly the alphabet tag of the input. -/
theorem complement_preserves_alphabet (s r : Seq) :
    (Seq.complement s = .ok r → r.alphabet = s.alphabet) ∧
    (Seq.reverse_complement s = .ok r → r.alphabet = s.alphabet) := by
  constructor
  · intro h
    cases hx : Seq.chooseTable initTables s with
    | error e =>
      simp [Seq.complement, Seq.complementWith, hx] at h
    | ok d =>
      simp [Seq.complement, Seq.complementWith, hx] at h
      rw [← h]
  · intro h
    cases hx : Seq.chooseTable initTables s with
    | error e =>
      simp [Seq.reverse_complement, Seq.complement, Seq.complementWith, hx,
        Except.map] at h
    | ok d =>
      simp [Seq.reverse_complement, Seq.complement, Seq.complementWith, hx,
        Except.map] at h
      rw [← h]

/-- C10 witness: the complement of A under generic DNA keeps the generic DNA
tag. -/
theorem complement_preserves_alphabet_witness :
    (Seq.mk ['T'] .generic_dna).alphabet = (Seq.mk ['A'] .generic_dna).alphabet :=
  (complement_preserves_alphabet ⟨['A'], .generic_dna⟩ ⟨['T'], .generic_dna⟩).1
    (by decide)

end Bio
